import Mathlib

/-!
# Verification of the nestjs-pubsub-lib core

A shallow embedding of the library's subscription-lifecycle and
message-dispatch core, translated from the TypeScript sources:

* `src/pubsub-base.listener.ts`   (`PubsubBaseListener`)
* `src/pubsub-explorer.service.ts` (`PubSubExplorer`, `PubsubPublisher`)
* `src/pubsub.module.ts` and the explorer-variant module file
  (`PubsubModule.register`, `mergeDefaultOptions`, `createClient`)

Payloads are modelled after the text decode (`Buffer.toString` never
throws, so "malformed byte payload" coincides with `JSON.parse` failure):
a message body is a `List Char`.  `JSON.stringify` / `JSON.parse` are
modelled by an executable encoder and a fuel-based recursive-descent
decoder over a JSON value type with integer numbers; the encoder mirrors
`JSON.stringify` (quote, backslash and control characters escaped, the
five short escapes used where they exist, `\u00XX` otherwise, no
whitespace emitted) and the decoder accepts exactly the
whitespace-free grammar that the encoder emits.
-/

namespace PubsubLib

/-- A JSON value (`JSON.stringify`/`JSON.parse` data), with numbers
restricted to integers and strings as lists of characters. -/
inductive Json where
  | null : Json
  | bool : Bool → Json
  | num : Int → Json
  | str : List Char → Json
  | arr : List Json → Json
  | obj : List (List Char × Json) → Json
deriving Repr

/-- Decimal digit character for `n < 10`. -/
def digitChar : Nat → Char
  | 0 => '0'
  | 1 => '1'
  | 2 => '2'
  | 3 => '3'
  | 4 => '4'
  | 5 => '5'
  | 6 => '6'
  | 7 => '7'
  | 8 => '8'
  | _ => '9'

/-- Big-endian decimal digits of a natural number (no leading zeros). -/
def natChars (n : Nat) : List Char :=
  if _h : n < 10 then [digitChar n]
  else natChars (n / 10) ++ [digitChar (n % 10)]
decreasing_by exact Nat.div_lt_self (by omega) (by omega)

/-- Decimal rendering of an integer, as `JSON.stringify` renders it. -/
def encodeInt (n : Int) : List Char :=
  if n < 0 then '-' :: natChars (-n).toNat else natChars n.toNat

/-- Lower-case hexadecimal digit character for `n < 16`. -/
def hexDigit : Nat → Char
  | 0 => '0'
  | 1 => '1'
  | 2 => '2'
  | 3 => '3'
  | 4 => '4'
  | 5 => '5'
  | 6 => '6'
  | 7 => '7'
  | 8 => '8'
  | 9 => '9'
  | 10 => 'a'
  | 11 => 'b'
  | 12 => 'c'
  | 13 => 'd'
  | 14 => 'e'
  | _ => 'f'

/-- `JSON.stringify` escaping of one string character: quote and
backslash escaped, control characters via the short escapes
`\b \t \n \f \r` or `\u00XX`, everything else literal. -/
def encChar (c : Char) : List Char :=
  if c = '"' then ['\\', '"']
  else if c = '\\' then ['\\', '\\']
  else if c.toNat < 32 then
    if c.toNat = 8 then ['\\', 'b']
    else if c.toNat = 9 then ['\\', 't']
    else if c.toNat = 10 then ['\\', 'n']
    else if c.toNat = 12 then ['\\', 'f']
    else if c.toNat = 13 then ['\\', 'r']
    else ['\\', 'u', '0', '0', hexDigit (c.toNat / 16), hexDigit (c.toNat % 16)]
  else [c]

/-- Body of a `JSON.stringify`d string (without the surrounding quotes). -/
def encodeStrBody : List Char → List Char
  | [] => []
  | c :: cs => encChar c ++ encodeStrBody cs

/-- The keyword literal `null`. -/
def litNull : List Char := ['n', 'u', 'l', 'l']

/-- The keyword literal `true`. -/
def litTrue : List Char := ['r', 'u', 'e']

/-- The keyword literal `false`, after its head. -/
def litFalse : List Char := ['a', 'l', 's', 'e']

mutual

/-- `JSON.stringify` of a JSON value (`JSON.stringify` emits no
whitespace when called with a single argument, as the library does). -/
def Json.encode : Json → List Char
  | .null => litNull
  | .bool b => if b then 't' :: litTrue else 'f' :: litFalse
  | .num n => encodeInt n
  | .str s => '"' :: (encodeStrBody s ++ ['"'])
  | .arr xs => '[' :: (encodeElems xs ++ [']'])
  | .obj kvs => '{' :: (encodeMembers kvs ++ ['}'])

/-- Comma-separated encodings of array elements. -/
def encodeElems : List Json → List Char
  | [] => []
  | [x] => Json.encode x
  | x :: y :: t => Json.encode x ++ ',' :: encodeElems (y :: t)

/-- Comma-separated `"key":value` encodings of object members. -/
def encodeMembers : List (List Char × Json) → List Char
  | [] => []
  | [(k, v)] => '"' :: (encodeStrBody k ++ ['"']) ++ ':' :: Json.encode v
  | (k, v) :: m :: t =>
    '"' :: (encodeStrBody k ++ ['"']) ++ ':' :: Json.encode v ++ ',' :: encodeMembers (m :: t)

end

/-- Value of a hexadecimal digit character, if it is one. -/
def hexVal? (c : Char) : Option Nat :=
  if '0' ≤ c ∧ c ≤ '9' then some (c.toNat - 48)
  else if 'a' ≤ c ∧ c ≤ 'f' then some (c.toNat - 87)
  else if 'A' ≤ c ∧ c ≤ 'F' then some (c.toNat - 55)
  else none

/-- Character denoted by a single-character JSON string escape. -/
def escChar? (c : Char) : Option Char :=
  if c = '"' then some '"'
  else if c = '\\' then some '\\'
  else if c = '/' then some '/'
  else if c = 'b' then some (Char.ofNat 8)
  else if c = 'f' then some (Char.ofNat 12)
  else if c = 'n' then some '\n'
  else if c = 'r' then some '\r'
  else if c = 't' then some '\t'
  else none

mutual

/-- JSON string-body decoder: consumes up to and including the closing
quote, returning the decoded characters and the rest of the input. -/
def parseStrBody : List Char → Option (List Char × List Char)
  | [] => none
  | c :: cs =>
    if c = '"' then some ([], cs)
    else if c = '\\' then parseEscTail cs
    else if c.toNat < 32 then none
    else (parseStrBody cs).map fun p => (c :: p.1, p.2)

/-- Decodes the remainder of a string after a backslash. -/
def parseEscTail : List Char → Option (List Char × List Char)
  | 'u' :: h1 :: h2 :: h3 :: h4 :: rest =>
    match hexVal? h1, hexVal? h2, hexVal? h3, hexVal? h4 with
    | some a, some b, some c, some d =>
      (parseStrBody rest).map fun p =>
        (Char.ofNat (4096 * a + 256 * b + 16 * c + d) :: p.1, p.2)
    | _, _, _, _ => none
  | e :: rest =>
    match escChar? e with
    | some c => (parseStrBody rest).map fun p => (c :: p.1, p.2)
    | none => none
  | [] => none

end

/-- Digit-accumulation loop of the number decoder. -/
def parseNatLoop (acc : Nat) : List Char → Nat × List Char
  | [] => (acc, [])
  | c :: cs =>
    if c.isDigit then parseNatLoop (10 * acc + (c.toNat - 48)) cs
    else (acc, c :: cs)

/-- Decodes a nonempty run of decimal digits. -/
def parseNatPart : List Char → Option (Nat × List Char)
  | [] => none
  | c :: cs => if c.isDigit then some (parseNatLoop (c.toNat - 48) cs) else none

/-- Consumes an expected literal run of characters. -/
def stripPre : List Char → List Char → Option (List Char)
  | [], cs => some cs
  | _ :: _, [] => none
  | p :: ps, c :: cs => if c = p then stripPre ps cs else none

mutual

/-- Fuel-based recursive-descent JSON value decoder (the whitespace-free
grammar emitted by `Json.encode`). -/
def parseVal : Nat → List Char → Option (Json × List Char)
  | 0, _ => none
  | _ + 1, [] => none
  | fuel + 1, c :: cs =>
    if c = 'n' then
      (stripPre litNull.tail cs).map fun r => (.null, r)
    else if c = 't' then
      (stripPre litTrue cs).map fun r => (.bool true, r)
    else if c = 'f' then
      (stripPre litFalse cs).map fun r => (.bool false, r)
    else if c = '"' then
      (parseStrBody cs).map fun p => (.str p.1, p.2)
    else if c = '[' then
      if cs.head? = some ']' then some (.arr [], cs.tail)
      else (parseElems fuel cs).map fun p => (.arr p.1, p.2)
    else if c = '{' then
      if cs.head? = some '}' then some (.obj [], cs.tail)
      else (parseMembers fuel cs).map fun p => (.obj p.1, p.2)
    else if c = '-' then
      (parseNatPart cs).map fun p => (.num (-(p.1 : Int)), p.2)
    else if c.isDigit then
      (parseNatPart (c :: cs)).map fun p => (.num (p.1 : Int), p.2)
    else none

/-- Decodes one or more comma-separated array elements up to and
including the closing bracket. -/
def parseElems : Nat → List Char → Option (List Json × List Char)
  | 0, _ => none
  | fuel + 1, cs =>
    match parseVal fuel cs with
    | none => none
    | some (v, rest) =>
      match rest with
      | ',' :: r2 => (parseElems fuel r2).map fun p => (v :: p.1, p.2)
      | ']' :: r2 => some ([v], r2)
      | _ => none

/-- Decodes one or more comma-separated object members up to and
including the closing brace. -/
def parseMembers : Nat → List Char → Option (List (List Char × Json) × List Char)
  | 0, _ => none
  | _ + 1, [] => none
  | fuel + 1, c :: cs =>
    if c = '"' then
      match parseStrBody cs with
      | none => none
      | some (k, r) =>
        match r with
        | ':' :: r2 =>
          match parseVal fuel r2 with
          | none => none
          | some (v, r3) =>
            match r3 with
            | ',' :: r4 => (parseMembers fuel r4).map fun p => ((k, v) :: p.1, p.2)
            | '}' :: r4 => some ([(k, v)], r4)
            | _ => none
        | _ => none
    else none

end

mutual

/-- Fuel needed by `parseVal` on the encoding of a value. -/
def fsize : Json → Nat
  | .arr xs => 2 + fsizeElems xs
  | .obj kvs => 2 + fsizeMembers kvs
  | .null => 1
  | .bool _ => 1
  | .num _ => 1
  | .str _ => 1

/-- Fuel needed by `parseElems` on encoded array elements. -/
def fsizeElems : List Json → Nat
  | [] => 0
  | x :: xs => fsize x + 1 + fsizeElems xs

/-- Fuel needed by `parseMembers` on encoded object members. -/
def fsizeMembers : List (List Char × Json) → Nat
  | [] => 0
  | (_, v) :: t => fsize v + 1 + fsizeMembers t

end

/-- `JSON.parse` model: succeeds iff the whole input is one JSON value.
`2 * s.length + 1` fuel suffices for any input that can succeed. -/
def Json.parse (s : List Char) : Option Json :=
  match parseVal (2 * s.length + 1) s with
  | some (v, []) => some v
  | _ => none

/-! ## Round trip: numbers -/

theorem digitChar_isDigit {n : Nat} (h : n < 10) : (digitChar n).isDigit = true := by
  interval_cases n <;> decide

theorem digitChar_toNat {n : Nat} (h : n < 10) : (digitChar n).toNat - 48 = n := by
  interval_cases n <;> decide

theorem natChars_ne_nil (n : Nat) : natChars n ≠ [] := by
  rw [natChars]
  split <;> simp

theorem natChars_digits (n : Nat) : ∀ c ∈ natChars n, c.isDigit = true := by
  induction n using Nat.strong_induction_on with
  | _ n ih =>
    rw [natChars]
    split
    · next h =>
      intro c hc
      simp only [List.mem_singleton] at hc
      subst hc
      exact digitChar_isDigit h
    · next h =>
      intro c hc
      rcases List.mem_append.mp hc with hc | hc
      · exact ih (n / 10) (Nat.div_lt_self (by omega) (by omega)) c hc
      · simp only [List.mem_singleton] at hc
        subst hc
        exact digitChar_isDigit (Nat.mod_lt _ (by omega))

theorem foldl_natChars (n : Nat) : ∀ acc : Nat,
    List.foldl (fun a c => 10 * a + (c.toNat - 48)) acc (natChars n) =
      acc * 10 ^ (natChars n).length + n := by
  induction n using Nat.strong_induction_on with
  | _ n ih =>
    intro acc
    rw [natChars]
    split
    · next h =>
      simp [digitChar_toNat h]
      ring
    · next h =>
      rw [List.foldl_append, ih (n / 10) (Nat.div_lt_self (by omega) (by omega))]
      simp only [List.foldl_cons, List.foldl_nil, List.length_append, List.length_singleton]
      rw [digitChar_toNat (Nat.mod_lt _ (by omega))]
      have hmod : 10 * (n / 10) + n % 10 = n := Nat.div_add_mod n 10
      rw [pow_succ]
      ring_nf
      omega

theorem parseNatLoop_append (ds : List Char) : ∀ (acc : Nat) (rest : List Char),
    (∀ c ∈ ds, c.isDigit = true) →
    (∀ c ∈ rest.head?, c.isDigit = false) →
    parseNatLoop acc (ds ++ rest) =
      (List.foldl (fun a c => 10 * a + (c.toNat - 48)) acc ds, rest) := by
  induction ds with
  | nil =>
    intro acc rest _ hrest
    cases rest with
    | nil => rfl
    | cons c cs =>
      have : c.isDigit = false := hrest c (by simp)
      simp [parseNatLoop, this]
  | cons d ds ih =>
    intro acc rest hds hrest
    have hd : d.isDigit = true := hds d (by simp)
    simp only [List.cons_append, parseNatLoop, hd, if_pos, List.foldl_cons]
    exact ih _ rest (fun c hc => hds c (by simp [hc])) hrest

theorem parseNatPart_natChars (n : Nat) (rest : List Char)
    (hrest : ∀ c ∈ rest.head?, c.isDigit = false) :
    parseNatPart (natChars n ++ rest) = some (n, rest) := by
  obtain ⟨d, ds, hds⟩ : ∃ d ds, natChars n = d :: ds := by
    cases h : natChars n with
    | nil => exact absurd h (natChars_ne_nil n)
    | cons d ds => exact ⟨d, ds, rfl⟩
  have hd : d.isDigit = true := natChars_digits n d (by rw [hds]; simp)
  have hall : ∀ c ∈ ds, c.isDigit = true := fun c hc =>
    natChars_digits n c (by rw [hds]; simp [hc])
  rw [hds, List.cons_append]
  simp only [parseNatPart, hd, if_pos]
  rw [parseNatLoop_append ds _ rest hall hrest]
  have h0 := foldl_natChars n 0
  rw [hds] at h0
  simp only [List.foldl_cons, Nat.mul_zero, Nat.zero_add, Nat.zero_mul] at h0
  rw [h0]

/-! ## Round trip: strings -/

theorem parseStrBody_encChar (c : Char) (tail : List Char) :
    parseStrBody (encChar c ++ tail) =
      (parseStrBody tail).map fun p => (c :: p.1, p.2) := by
  rw [encChar]
  split
  · next h =>
    subst h
    simp [parseStrBody, parseEscTail, escChar?]
  · split
    · next h =>
      subst h
      simp [parseStrBody, parseEscTail, escChar?]
    · next hq hb =>
      split
      · next hlt =>
        split
        · next h8 =>
          have hc : c = Char.ofNat 8 := by rw [← h8, Char.ofNat_toNat]
          simp [parseStrBody, parseEscTail, escChar?, hc]
        · split
          · next h9 =>
            have hc : c = '\t' := by
              have : c = Char.ofNat 9 := by rw [← h9, Char.ofNat_toNat]
              simpa using this
            simp [parseStrBody, parseEscTail, escChar?, hc]
          · split
            · next h10 =>
              have hc : c = '\n' := by
                have : c = Char.ofNat 10 := by rw [← h10, Char.ofNat_toNat]
                simpa using this
              simp [parseStrBody, parseEscTail, escChar?, hc]
            · split
              · next h12 =>
                have hc : c = Char.ofNat 12 := by rw [← h12, Char.ofNat_toNat]
                simp [parseStrBody, parseEscTail, escChar?, hc]
              · split
                · next h13 =>
                  have hc : c = '\r' := by
                    have : c = Char.ofNat 13 := by rw [← h13, Char.ofNat_toNat]
                    simpa using this
                  simp [parseStrBody, parseEscTail, escChar?, hc]
                · next h13 =>
                  have hdiv : c.toNat / 16 < 16 := by omega
                  have hmod : c.toNat % 16 < 16 := by omega
                  have hhex : ∀ m < 16, hexVal? (hexDigit m) = some m := by decide
                  have h0 : hexVal? '0' = some 0 := by decide
                  have key : Char.ofNat (16 * (c.toNat / 16) + c.toNat % 16) = c := by
                    have h16 : 16 * (c.toNat / 16) + c.toNat % 16 = c.toNat :=
                      Nat.div_add_mod _ 16
                    rw [h16, Char.ofNat_toNat]
                  simp [parseStrBody, parseEscTail, hhex _ hdiv, hhex _ hmod, h0, key]
      · next hge =>
        simp [parseStrBody, hq, hb, hge]

theorem parseStrBody_encodeStrBody (s : List Char) : ∀ rest : List Char,
    parseStrBody (encodeStrBody s ++ '"' :: rest) = some (s, rest) := by
  induction s with
  | nil =>
    intro rest
    simp [encodeStrBody, parseStrBody]
  | cons c cs ih =>
    intro rest
    rw [encodeStrBody, List.append_assoc, parseStrBody_encChar, ih rest]
    rfl

/-! ## Round trip: values -/

/-- Characters that can start the encoding of a JSON value. -/
def starter (c : Char) : Prop :=
  c = 'n' ∨ c = 't' ∨ c = 'f' ∨ c = '"' ∨ c = '[' ∨ c = '{' ∨ c = '-' ∨ c.isDigit = true

theorem isDigit_not_special {d : Char} (hd : d.isDigit = true) :
    d ≠ 'n' ∧ d ≠ 't' ∧ d ≠ 'f' ∧ d ≠ '"' ∧ d ≠ '[' ∧ d ≠ '{' ∧ d ≠ '-' := by
  refine ⟨?_, ?_, ?_, ?_, ?_, ?_, ?_⟩ <;> (rintro rfl; revert hd; decide)

theorem starter_ne_rbracket {c : Char} (h : starter c) : c ≠ ']' := by
  rcases h with h | h | h | h | h | h | h | h <;> first
    | (subst h; decide)
    | (rintro rfl; revert h; decide)

theorem starter_ne_rbrace {c : Char} (h : starter c) : c ≠ '}' := by
  rcases h with h | h | h | h | h | h | h | h <;> first
    | (subst h; decide)
    | (rintro rfl; revert h; decide)

theorem encode_head_starter (v : Json) :
    ∃ c cs, Json.encode v = c :: cs ∧ starter c := by
  cases v with
  | null => exact ⟨'n', _, rfl, Or.inl rfl⟩
  | bool b =>
    cases b with
    | true => exact ⟨'t', _, rfl, Or.inr (Or.inl rfl)⟩
    | false => exact ⟨'f', _, rfl, Or.inr (Or.inr (Or.inl rfl))⟩
  | num n =>
    rw [Json.encode, encodeInt]
    split
    · exact ⟨'-', _, rfl, by simp [starter]⟩
    · obtain ⟨d, ds, hds⟩ : ∃ d ds, natChars n.toNat = d :: ds := by
        cases h : natChars n.toNat with
        | nil => exact absurd h (natChars_ne_nil _)
        | cons d ds => exact ⟨d, ds, rfl⟩
      refine ⟨d, ds, hds, ?_⟩
      have : d.isDigit = true := natChars_digits _ d (by rw [hds]; simp)
      simp [starter, this]
  | str s => exact ⟨'"', _, rfl, by simp [starter]⟩
  | arr xs => exact ⟨'[', _, rfl, by simp [starter]⟩
  | obj kvs => exact ⟨'{', _, rfl, by simp [starter]⟩

theorem encodeElems_cons (x : Json) (xs : List Json) :
    ∃ tail, encodeElems (x :: xs) = Json.encode x ++ tail := by
  cases xs with
  | nil => exact ⟨[], by simp [encodeElems]⟩
  | cons y t => exact ⟨',' :: encodeElems (y :: t), rfl⟩

theorem noDigitHead_cons {c : Char} (h : c.isDigit = false) (l : List Char) :
    ∀ x ∈ (c :: l).head?, x.isDigit = false := by
  intro x hx
  simp only [List.head?, Option.mem_def, Option.some_inj] at hx
  subst hx
  exact h

theorem parseVal_natChars (f : Nat) (m : Nat) (rest : List Char)
    (hrest : ∀ c ∈ rest.head?, c.isDigit = false) :
    parseVal (f + 1) (natChars m ++ rest) = some (.num (m : Int), rest) := by
  obtain ⟨d, ds, hds⟩ : ∃ d ds, natChars m = d :: ds := by
    cases h : natChars m with
    | nil => exact absurd h (natChars_ne_nil _)
    | cons d ds => exact ⟨d, ds, rfl⟩
  have hd : d.isDigit = true := natChars_digits m d (by rw [hds]; simp)
  obtain ⟨h1, h2, h3, h4, h5, h6, h7⟩ := isDigit_not_special hd
  rw [hds, List.cons_append, parseVal]
  rw [if_neg h1, if_neg h2, if_neg h3, if_neg h4, if_neg h5, if_neg h6, if_neg h7, if_pos hd]
  rw [← List.cons_append, ← hds, parseNatPart_natChars m rest hrest]
  rfl

mutual

theorem parseVal_encode (v : Json) (fuel : Nat) (rest : List Char)
    (hfuel : fsize v ≤ fuel) (hrest : ∀ c ∈ rest.head?, c.isDigit = false) :
    parseVal fuel (Json.encode v ++ rest) = some (v, rest) := by
  have hfs : 1 ≤ fsize v := by
    cases v <;> simp [fsize] <;> omega
  obtain ⟨f, rfl⟩ : ∃ f, fuel = f + 1 := ⟨fuel - 1, by omega⟩
  cases v with
  | null => simp [Json.encode, parseVal, stripPre, litNull]
  | bool b => cases b <;> simp [Json.encode, parseVal, stripPre, litTrue, litFalse]
  | num n =>
    rw [Json.encode, encodeInt]
    split
    · next hneg =>
      rw [List.cons_append, parseVal]
      rw [if_neg (by decide), if_neg (by decide), if_neg (by decide), if_neg (by decide),
        if_neg (by decide), if_neg (by decide), if_pos rfl]
      rw [parseNatPart_natChars _ rest hrest]
      simp only [Option.map_some']
      have hn : -(((-n).toNat : Int)) = n := by omega
      rw [hn]
    · next hpos =>
      rw [parseVal_natChars f _ rest hrest]
      have hn : ((n.toNat : Int)) = n := by omega
      rw [hn]
  | str s =>
    rw [Json.encode]
    simp only [List.cons_append, List.append_assoc, List.singleton_append, List.nil_append]
    rw [parseVal]
    rw [if_neg (by decide), if_neg (by decide), if_neg (by decide), if_pos rfl]
    rw [parseStrBody_encodeStrBody s rest]
    rfl
  | arr xs =>
    cases xs with
    | nil => simp [Json.encode, encodeElems, parseVal]
    | cons x xs =>
      obtain ⟨tail, htail⟩ := encodeElems_cons x xs
      obtain ⟨c0, cs0, henc, hst⟩ := encode_head_starter x
      have hc0 : c0 ≠ ']' := starter_ne_rbracket hst
      rw [Json.encode]
      simp only [List.cons_append, List.append_assoc, List.singleton_append, List.nil_append]
      rw [parseVal]
      rw [if_neg (by decide), if_neg (by decide), if_neg (by decide), if_neg (by decide),
        if_pos rfl]
      have hhead : ¬((encodeElems (x :: xs) ++ ']' :: rest).head? = some ']') := by
        rw [htail, henc]
        simp [hc0]
      rw [if_neg hhead]
      rw [parseElems_encode (x :: xs) f rest (by simp) (by simp [fsize] at hfuel; omega)]
      rfl
  | obj kvs =>
    cases kvs with
    | nil => simp [Json.encode, encodeMembers, parseVal]
    | cons kv t =>
      obtain ⟨k, v⟩ := kv
      rw [Json.encode]
      simp only [List.cons_append, List.append_assoc, List.singleton_append, List.nil_append]
      rw [parseVal]
      rw [if_neg (by decide), if_neg (by decide), if_neg (by decide), if_neg (by decide),
        if_neg (by decide), if_pos rfl]
      have hhead : ¬((encodeMembers ((k, v) :: t) ++ '}' :: rest).head? = some '}') := by
        cases t <;> simp [encodeMembers]
      rw [if_neg hhead]
      rw [parseMembers_encode ((k, v) :: t) f rest (by simp) (by simp [fsize] at hfuel; omega)]
      rfl

theorem parseElems_encode (xs : List Json) (fuel : Nat) (rest : List Char)
    (hne : xs ≠ []) (hfuel : fsizeElems xs ≤ fuel) :
    parseElems fuel (encodeElems xs ++ ']' :: rest) = some (xs, rest) := by
  cases xs with
  | nil => exact absurd rfl hne
  | cons x xs =>
    have hfs : 1 ≤ fsizeElems (x :: xs) := by simp [fsizeElems]; omega
    obtain ⟨f, rfl⟩ : ∃ f, fuel = f + 1 := ⟨fuel - 1, by omega⟩
    rw [fsizeElems] at hfuel
    cases xs with
    | nil =>
      rw [encodeElems, parseElems]
      rw [parseVal_encode x f (']' :: rest) (by omega) (noDigitHead_cons (by decide) _)]
      rfl
    | cons y t =>
      rw [encodeElems]
      simp only [List.cons_append, List.append_assoc]
      rw [parseElems]
      rw [parseVal_encode x f (',' :: (encodeElems (y :: t) ++ ']' :: rest)) (by omega)
        (noDigitHead_cons (by decide) _)]
      show (parseElems f (encodeElems (y :: t) ++ ']' :: rest)).map
          (fun p => (x :: p.1, p.2)) = some (x :: y :: t, rest)
      rw [parseElems_encode (y :: t) f rest (by simp) (by omega)]
      rfl

theorem parseMembers_encode (kvs : List (List Char × Json)) (fuel : Nat) (rest : List Char)
    (hne : kvs ≠ []) (hfuel : fsizeMembers kvs ≤ fuel) :
    parseMembers fuel (encodeMembers kvs ++ '}' :: rest) = some (kvs, rest) := by
  cases kvs with
  | nil => exact absurd rfl hne
  | cons kv t =>
    obtain ⟨k, v⟩ := kv
    have hfs : 1 ≤ fsizeMembers ((k, v) :: t) := by simp [fsizeMembers]; omega
    obtain ⟨f, rfl⟩ : ∃ f, fuel = f + 1 := ⟨fuel - 1, by omega⟩
    rw [fsizeMembers] at hfuel
    cases t with
    | nil =>
      rw [encodeMembers]
      simp only [List.cons_append, List.append_assoc, List.singleton_append, List.nil_append]
      rw [parseMembers, if_pos rfl]
      rw [parseStrBody_encodeStrBody k (':' :: (Json.encode v ++ '}' :: rest))]
      show (match parseVal f (Json.encode v ++ '}' :: rest) with
        | none => none
        | some (v2, r3) =>
          match r3 with
          | ',' :: r4 => (parseMembers f r4).map fun p => ((k, v2) :: p.1, p.2)
          | '}' :: r4 => some ([(k, v2)], r4)
          | _ => none) = some ([(k, v)], rest)
      rw [parseVal_encode v f ('}' :: rest) (by omega) (noDigitHead_cons (by decide) _)]
      rfl
    | cons m t =>
      rw [encodeMembers]
      simp only [List.cons_append, List.append_assoc, List.singleton_append, List.nil_append]
      rw [parseMembers, if_pos rfl]
      rw [parseStrBody_encodeStrBody k
        (':' :: (Json.encode v ++ ',' :: (encodeMembers (m :: t) ++ '}' :: rest)))]
      show (match parseVal f (Json.encode v ++ ',' :: (encodeMembers (m :: t) ++ '}' :: rest)) with
        | none => none
        | some (v2, r3) =>
          match r3 with
          | ',' :: r4 => (parseMembers f r4).map fun p => ((k, v2) :: p.1, p.2)
          | '}' :: r4 => some ([(k, v2)], r4)
          | _ => none) = some ((k, v) :: m :: t, rest)
      rw [parseVal_encode v f (',' :: (encodeMembers (m :: t) ++ '}' :: rest)) (by omega)
        (noDigitHead_cons (by decide) _)]
      show (parseMembers f (encodeMembers (m :: t) ++ '}' :: rest)).map
          (fun p => ((k, v) :: p.1, p.2)) = some ((k, v) :: m :: t, rest)
      rw [parseMembers_encode (m :: t) f rest (by simp) (by omega)]
      rfl

end

mutual

theorem fsize_le_encode (v : Json) : fsize v + 1 ≤ 2 * (Json.encode v).length := by
  cases v with
  | null => simp [fsize, Json.encode, litNull]
  | bool b => cases b <;> simp [fsize, Json.encode, litTrue, litFalse]
  | num n =>
    have h1 : 1 ≤ (Json.encode (Json.num n)).length := by
      rw [Json.encode, encodeInt]
      split
      · simp
      · cases h : natChars n.toNat with
        | nil => exact absurd h (natChars_ne_nil _)
        | cons a l => simp [h]
    rw [fsize]
    omega
  | str s =>
    rw [fsize, Json.encode]
    simp [List.length_append]
  | arr xs =>
    have h := fsizeElems_le_encode xs
    rw [fsize, Json.encode]
    simp only [List.length_cons, List.length_append]
    omega
  | obj kvs =>
    have h := fsizeMembers_le_encode kvs
    rw [fsize, Json.encode]
    simp only [List.length_cons, List.length_append]
    omega

theorem fsizeElems_le_encode (xs : List Json) : fsizeElems xs ≤ 2 * (encodeElems xs).length := by
  cases xs with
  | nil => simp [fsizeElems, encodeElems]
  | cons x t =>
    cases t with
    | nil =>
      have h := fsize_le_encode x
      simp only [fsizeElems, encodeElems]
      omega
    | cons y t =>
      have h1 := fsize_le_encode x
      have h2 := fsizeElems_le_encode (y :: t)
      rw [fsizeElems, encodeElems]
      simp only [List.length_append, List.length_cons]
      omega

theorem fsizeMembers_le_encode (kvs : List (List Char × Json)) :
    fsizeMembers kvs ≤ 2 * (encodeMembers kvs).length := by
  cases kvs with
  | nil => simp [fsizeMembers, encodeMembers]
  | cons kv t =>
    obtain ⟨k, v⟩ := kv
    cases t with
    | nil =>
      have h := fsize_le_encode v
      simp only [fsizeMembers, encodeMembers]
      simp only [List.length_append, List.length_cons]
      omega
    | cons m t =>
      have h1 := fsize_le_encode v
      have h2 := fsizeMembers_le_encode (m :: t)
      rw [fsizeMembers, encodeMembers]
      simp only [List.length_append, List.length_cons]
      omega

end

/-- Decode after encode is the identity on JSON values: the model of
`JSON.parse(JSON.stringify(P))` returns `P`. -/
theorem Json.parse_encode (v : Json) : Json.parse (Json.encode v) = some v := by
  have hb := fsize_le_encode v
  have h := parseVal_encode v (2 * (Json.encode v).length + 1) [] (by omega) (by simp)
  rw [List.append_nil] at h
  rw [Json.parse, h]

/-! ## Dispatch core: the per-message callbacks

Both listener variants register a callback on `subscription.on("message", ...)`.
The user handler is modelled as a function from the parsed payload to its
observable behaviour: the ack/nack calls it performs on the raw message
handle before finishing, and whether it throws/rejects.  The callback's
observable effects are collected in a `DispatchOutcome`; the ack/nack
calls issued by the library callback itself (`coreActions`) are kept
separate from those issued by the handler (`handlerActions`). -/

/-- An acknowledgement call on the raw Pub/Sub message handle. -/
inductive MsgAction where
  | ack : MsgAction
  | nack : MsgAction
deriving DecidableEq, Repr

/-- Observable behaviour of one invocation of a user handler
(`handlePayload` in the base listener, `handle` in the explorer variant). -/
structure HandlerRun where
  actions : List MsgAction
  throws : Bool

/-- Observable effects of one run of a listener message callback. -/
structure DispatchOutcome where
  invokedWith : Option Json
  handlerActions : List MsgAction
  coreActions : List MsgAction
  errorLogs : Nat
  propagated : Bool
deriving Repr

/-- `PubsubBaseListener.onMessage` (`src/pubsub-base.listener.ts`,
lines 93-119): `parsePayload` runs in a try/catch that logs the error,
calls `message.nack()` and returns on failure; then `handlePayload`
runs in a try/catch that logs the error and calls `message.nack()` on
failure.  Every branch returns normally, so no failure propagates out
of the callback. -/
def onMessage (handlePayload : Json → HandlerRun) (data : List Char) : DispatchOutcome :=
  match Json.parse data with
  | none =>
    { invokedWith := none, handlerActions := [], coreActions := [.nack]
      errorLogs := 1, propagated := false }
  | some parsedPayload =>
    let run := handlePayload parsedPayload
    if run.throws then
      { invokedWith := some parsedPayload, handlerActions := run.actions
        coreActions := [.nack], errorLogs := 1, propagated := false }
    else
      { invokedWith := some parsedPayload, handlerActions := run.actions
        coreActions := [], errorLogs := 0, propagated := false }

/-- The message callback wired by `PubSubExplorer.setupHandler`
(`src/pubsub-explorer.service.ts`, lines 99-112): one try block runs
`JSON.parse` and `instance.handle`; its single catch logs the
normalized error and calls `message.nack()`, whether the parse or the
handler failed.  Every branch returns normally. -/
def explorerOnMessage (handle : Json → HandlerRun) (data : List Char) : DispatchOutcome :=
  match Json.parse data with
  | none =>
    { invokedWith := none, handlerActions := [], coreActions := [.nack]
      errorLogs := 1, propagated := false }
  | some payload =>
    let run := handle payload
    if run.throws then
      { invokedWith := some payload, handlerActions := run.actions
        coreActions := [.nack], errorLogs := 1, propagated := false }
    else
      { invokedWith := some payload, handlerActions := run.actions
        coreActions := [], errorLogs := 0, propagated := false }

/-- All ack/nack calls a callback run performs on the message. -/
def DispatchOutcome.totalActions (r : DispatchOutcome) : List MsgAction :=
  r.handlerActions ++ r.coreActions

/-- C1: for every inbound message whose payload is malformed (not valid
JSON), the handler is never invoked, the callback negative-acknowledges
the message exactly once and never acknowledges it, and nothing escapes
the callback — in both listener variants. -/
theorem c1_malformed_payload_nacked_once (hb he : Json → HandlerRun) (data : List Char)
    (hp : Json.parse data = none) :
    (onMessage hb data).invokedWith = none ∧
    (onMessage hb data).totalActions = [MsgAction.nack] ∧
    (onMessage hb data).propagated = false ∧
    (explorerOnMessage he data).invokedWith = none ∧
    (explorerOnMessage he data).totalActions = [MsgAction.nack] ∧
    (explorerOnMessage he data).propagated = false := by
  simp [onMessage, explorerOnMessage, DispatchOutcome.totalActions, hp]

/-- Witness for C1 at a concrete malformed payload. -/
theorem c1_malformed_payload_nacked_once_witness :
    Json.parse ['o', 'o', 'p', 's'] = none ∧
    ((onMessage (fun _ => ⟨[], false⟩) ['o', 'o', 'p', 's']).invokedWith = none ∧
     (onMessage (fun _ => ⟨[], false⟩) ['o', 'o', 'p', 's']).totalActions = [MsgAction.nack] ∧
     (onMessage (fun _ => ⟨[], false⟩) ['o', 'o', 'p', 's']).propagated = false ∧
     (explorerOnMessage (fun _ => ⟨[], false⟩) ['o', 'o', 'p', 's']).invokedWith = none ∧
     (explorerOnMessage (fun _ => ⟨[], false⟩) ['o', 'o', 'p', 's']).totalActions =
       [MsgAction.nack] ∧
     (explorerOnMessage (fun _ => ⟨[], false⟩) ['o', 'o', 'p', 's']).propagated = false) :=
  ⟨rfl, c1_malformed_payload_nacked_once (fun _ => ⟨[], false⟩) (fun _ => ⟨[], false⟩)
    ['o', 'o', 'p', 's'] rfl⟩

/-- C2: for every message whose payload parses and whose handler
throws/rejects, the callback itself negative-acknowledges exactly once,
never acknowledges, and the handler's failure does not propagate out of
the callback — in both listener variants.  (`coreActions` are the
callback's own ack/nack calls; whatever the handler issued on the raw
handle before failing is recorded separately in `handlerActions`.) -/
theorem c2_handler_failure_nacked_once (hb he : Json → HandlerRun) (data : List Char) (p : Json)
    (hp : Json.parse data = some p)
    (htb : (hb p).throws = true) (hte : (he p).throws = true) :
    (onMessage hb data).invokedWith = some p ∧
    (onMessage hb data).coreActions = [MsgAction.nack] ∧
    (onMessage hb data).propagated = false ∧
    (explorerOnMessage he data).invokedWith = some p ∧
    (explorerOnMessage he data).coreActions = [MsgAction.nack] ∧
    (explorerOnMessage he data).propagated = false := by
  simp [onMessage, explorerOnMessage, hp, htb, hte]

/-- Witness for C2 at a concrete payload and a throwing handler. -/
theorem c2_handler_failure_nacked_once_witness :
    Json.parse ['1'] = some (Json.num 1) ∧
    ((fun _ => (⟨[], true⟩ : HandlerRun)) (Json.num 1)).throws = true ∧
    ((onMessage (fun _ => ⟨[], true⟩) ['1']).invokedWith = some (Json.num 1) ∧
     (onMessage (fun _ => ⟨[], true⟩) ['1']).coreActions = [MsgAction.nack] ∧
     (onMessage (fun _ => ⟨[], true⟩) ['1']).propagated = false ∧
     (explorerOnMessage (fun _ => ⟨[], true⟩) ['1']).invokedWith = some (Json.num 1) ∧
     (explorerOnMessage (fun _ => ⟨[], true⟩) ['1']).coreActions = [MsgAction.nack] ∧
     (explorerOnMessage (fun _ => ⟨[], true⟩) ['1']).propagated = false) :=
  ⟨rfl, rfl, c2_handler_failure_nacked_once (fun _ => ⟨[], true⟩) (fun _ => ⟨[], true⟩)
    ['1'] (Json.num 1) rfl rfl rfl⟩

/-- C3: for every message whose handler completes without raising, the
callback itself performs no ack and no nack; the only ack/nack calls on
the message are exactly those the handler issued via the raw handle —
in both listener variants. -/
theorem c3_success_core_silent (hb he : Json → HandlerRun) (data : List Char) (p : Json)
    (hp : Json.parse data = some p)
    (hob : (hb p).throws = false) (hoe : (he p).throws = false) :
    (onMessage hb data).invokedWith = some p ∧
    (onMessage hb data).coreActions = [] ∧
    (onMessage hb data).totalActions = (hb p).actions ∧
    (explorerOnMessage he data).invokedWith = some p ∧
    (explorerOnMessage he data).coreActions = [] ∧
    (explorerOnMessage he data).totalActions = (he p).actions := by
  simp [onMessage, explorerOnMessage, DispatchOutcome.totalActions, hp, hob, hoe]

/-- Witness for C3 at a concrete payload and a handler that acks and
returns normally. -/
theorem c3_success_core_silent_witness :
    Json.parse ['1'] = some (Json.num 1) ∧
    ((fun _ => (⟨[MsgAction.ack], false⟩ : HandlerRun)) (Json.num 1)).throws = false ∧
    ((onMessage (fun _ => ⟨[MsgAction.ack], false⟩) ['1']).invokedWith = some (Json.num 1) ∧
     (onMessage (fun _ => ⟨[MsgAction.ack], false⟩) ['1']).coreActions = [] ∧
     (onMessage (fun _ => ⟨[MsgAction.ack], false⟩) ['1']).totalActions =
       ((fun _ => (⟨[MsgAction.ack], false⟩ : HandlerRun)) (Json.num 1)).actions ∧
     (explorerOnMessage (fun _ => ⟨[MsgAction.ack], false⟩) ['1']).invokedWith =
       some (Json.num 1) ∧
     (explorerOnMessage (fun _ => ⟨[MsgAction.ack], false⟩) ['1']).coreActions = [] ∧
     (explorerOnMessage (fun _ => ⟨[MsgAction.ack], false⟩) ['1']).totalActions =
       ((fun _ => (⟨[MsgAction.ack], false⟩ : HandlerRun)) (Json.num 1)).actions) :=
  ⟨rfl, rfl, c3_success_core_silent (fun _ => ⟨[MsgAction.ack], false⟩)
    (fun _ => ⟨[MsgAction.ack], false⟩) ['1'] (Json.num 1) rfl rfl rfl⟩

/-- C4: for every JSON payload `P`, delivering a message whose body is
the publisher's encoding of `P` (`Buffer.from(JSON.stringify(data))`)
results in the handler being invoked with first argument equal to `P`,
in both listener variants. -/
theorem c4_encode_dispatch_identity (hb he : Json → HandlerRun) (P : Json) :
    (onMessage hb (Json.encode P)).invokedWith = some P ∧
    (explorerOnMessage he (Json.encode P)).invokedWith = some P := by
  constructor <;>
    simp [onMessage, explorerOnMessage, Json.parse_encode, apply_ite]

/-! ## Subscription options and the two merge implementations -/

/-- A `@google-cloud/pubsub` duration literal `{seconds: n}`. -/
structure DurationSeconds where
  seconds : Nat
deriving DecidableEq, Repr

/-- The `retryPolicy` sub-record of `CreateSubscriptionOptions`;
`Option` fields model absent JS object keys. -/
structure RetryPolicy where
  minimumBackoff : Option DurationSeconds
  maximumBackoff : Option DurationSeconds
deriving DecidableEq, Repr

/-- The subset of `CreateSubscriptionOptions` the library touches;
`Option` fields model absent JS object keys. -/
structure CreateSubscriptionOptions where
  ackDeadlineSeconds : Option Nat
  retryPolicy : Option RetryPolicy
  messageRetentionDuration : Option DurationSeconds
deriving DecidableEq, Repr

/-- The empty options object `{}`. -/
def emptySubscriptionOptions : CreateSubscriptionOptions := ⟨none, none, none⟩

/-- The empty retry-policy object `{}`. -/
def emptyRetryPolicy : RetryPolicy := ⟨none, none⟩

/-- Per-key precedence of the JS object spread `{...a, ...b}`: the
right operand's key wins when present. -/
def spreadKey {α : Type} (a b : Option α) : Option α :=
  match b with
  | some x => some x
  | none => a

/-- `{...a, ...b}` on retry-policy records. -/
def RetryPolicy.spread (a b : RetryPolicy) : RetryPolicy :=
  { minimumBackoff := spreadKey a.minimumBackoff b.minimumBackoff
    maximumBackoff := spreadKey a.maximumBackoff b.maximumBackoff }

/-- The fixed `defaultOptions` record of
`PubsubBaseListener.getMergedSubscriptionOptions`
(`src/pubsub-base.listener.ts`, lines 145-152); the explorer's
`defaultSubscriptionOptions` field (`src/pubsub-explorer.service.ts`,
lines 12-19) is the identical record. -/
def defaultSubscriptionOptions : CreateSubscriptionOptions :=
  { ackDeadlineSeconds := some 60
    retryPolicy := some { minimumBackoff := some ⟨10⟩, maximumBackoff := some ⟨600⟩ }
    messageRetentionDuration := some ⟨86400 * 7⟩ }

/-- `PubsubBaseListener.getMergedSubscriptionOptions`
(`src/pubsub-base.listener.ts`, lines 144-162):
`{...defaultOptions, ...(this.subscriptionOptions ?? {}), retryPolicy:
{...defaultOptions.retryPolicy,
...(this.subscriptionOptions?.retryPolicy ?? {})}}` — the explicit
`retryPolicy` key is written last, so it always holds the key-by-key
merge of the two retry policies. -/
def getMergedSubscriptionOptions
    (subscriptionOptions : Option CreateSubscriptionOptions) : CreateSubscriptionOptions :=
  let d := defaultSubscriptionOptions
  let o := subscriptionOptions.getD emptySubscriptionOptions
  { ackDeadlineSeconds := spreadKey d.ackDeadlineSeconds o.ackDeadlineSeconds
    retryPolicy := some (RetryPolicy.spread (d.retryPolicy.getD emptyRetryPolicy)
      ((subscriptionOptions.bind (fun so => so.retryPolicy)).getD emptyRetryPolicy))
    messageRetentionDuration :=
      spreadKey d.messageRetentionDuration o.messageRetentionDuration }

/-- The inline merge of `PubSubExplorer.getOrCreateSubscription`
(`src/pubsub-explorer.service.ts`, lines 76-83):
`{...this.defaultSubscriptionOptions, ...meta.subscriptionOptions,
retryPolicy: {...this.defaultSubscriptionOptions.retryPolicy,
...(meta.subscriptionOptions?.retryPolicy || {})}}` (spreading an
absent object contributes no keys, like `?? {}`). -/
def explorerMergedOptions
    (subscriptionOptions : Option CreateSubscriptionOptions) : CreateSubscriptionOptions :=
  let d := defaultSubscriptionOptions
  let o := subscriptionOptions.getD emptySubscriptionOptions
  { ackDeadlineSeconds := spreadKey d.ackDeadlineSeconds o.ackDeadlineSeconds
    retryPolicy := some (RetryPolicy.spread (d.retryPolicy.getD emptyRetryPolicy)
      ((subscriptionOptions.bind (fun so => so.retryPolicy)).getD emptyRetryPolicy))
    messageRetentionDuration :=
      spreadKey d.messageRetentionDuration o.messageRetentionDuration }

/-- An override record that sets only the retry-policy minimum backoff. -/
def minOnlyOverride (m : Nat) : CreateSubscriptionOptions :=
  { ackDeadlineSeconds := none
    retryPolicy := some { minimumBackoff := some ⟨m⟩, maximumBackoff := none }
    messageRetentionDuration := none }

/-- C7: the merge laws, in both listener variants — merging the fixed
defaults with an absent or empty override yields the defaults
unchanged, and an override setting only the retry-policy minimum
backoff keeps the default maximum backoff (nested key-by-key merge of
the `retryPolicy` sub-record). -/
theorem c7_merge_laws (m : Nat) :
    getMergedSubscriptionOptions none = defaultSubscriptionOptions ∧
    getMergedSubscriptionOptions (some emptySubscriptionOptions) = defaultSubscriptionOptions ∧
    ((getMergedSubscriptionOptions (some (minOnlyOverride m))).retryPolicy.getD
        emptyRetryPolicy).maximumBackoff =
      (defaultSubscriptionOptions.retryPolicy.getD emptyRetryPolicy).maximumBackoff ∧
    ((getMergedSubscriptionOptions (some (minOnlyOverride m))).retryPolicy.getD
        emptyRetryPolicy).minimumBackoff = some ⟨m⟩ ∧
    explorerMergedOptions none = defaultSubscriptionOptions ∧
    explorerMergedOptions (some emptySubscriptionOptions) = defaultSubscriptionOptions ∧
    ((explorerMergedOptions (some (minOnlyOverride m))).retryPolicy.getD
        emptyRetryPolicy).maximumBackoff =
      (defaultSubscriptionOptions.retryPolicy.getD emptyRetryPolicy).maximumBackoff ∧
    ((explorerMergedOptions (some (minOnlyOverride m))).retryPolicy.getD
        emptyRetryPolicy).minimumBackoff = some ⟨m⟩ :=
  ⟨rfl, rfl, rfl, rfl, rfl, rfl, rfl, rfl⟩

/-! ## Infrastructure provisioning -/

/-- State of the messaging backend as seen through the client: the
topics and subscriptions that exist, and the configuration each
subscription was created with. -/
structure PubsubBackend where
  topics : List String
  subs : List String
  subConfigs : List (String × CreateSubscriptionOptions)
deriving DecidableEq, Repr

/-- A topic handle (`pubSub.topic(name)`). -/
structure TopicHandle where
  name : String
deriving DecidableEq, Repr

/-- A subscription handle (`topic.subscription(name)`). -/
structure SubscriptionHandle where
  topicName : String
  name : String
deriving DecidableEq, Repr

/-- A thrown JS error, identified by its message. -/
structure PubsubError where
  message : String
deriving DecidableEq, Repr

/-- Message of the error thrown by both listener setup paths when a
topic is absent and auto-creation is disabled. -/
def listenerTopicMissingMsg (topicName : String) : String :=
  "Topic '" ++ topicName ++
    "' does not exist and auto-creation is disabled. Cannot start listener."

/-- Message of the error thrown by the publisher's `getTopic` when a
topic is absent and auto-creation is disabled. -/
def publisherTopicMissingMsg (topicName : String) : String :=
  "Topic '" ++ topicName ++ "' does not exist and auto-creation is disabled."

/-- Outcome of a topic-resolution call. -/
structure TopicResult where
  result : Except PubsubError TopicHandle
  backend : PubsubBackend
  createCalls : Nat
  warnLogs : Nat
deriving Repr

/-- `PubSubExplorer.getOrCreateTopic` (`src/pubsub-explorer.service.ts`,
lines 47-69): check existence once; if absent and `autoCreateTopics`,
warn, create and log; if absent otherwise, throw an error carrying the
topic name.  `PubsubBaseListener.onModuleInit` (lines 49-66) inlines
the same logic with the same message. -/
def getOrCreateTopic (autoCreateTopics : Bool) (st : PubsubBackend)
    (topicName : String) : TopicResult :=
  if st.topics.contains topicName then
    { result := .ok ⟨topicName⟩, backend := st, createCalls := 0, warnLogs := 0 }
  else if autoCreateTopics then
    { result := .ok ⟨topicName⟩
      backend := { st with topics := topicName :: st.topics }
      createCalls := 1, warnLogs := 1 }
  else
    { result := .error ⟨listenerTopicMissingMsg topicName⟩
      backend := st, createCalls := 0, warnLogs := 0 }

/-- `PubsubPublisher.getTopic` (publisher service, lines 202-224): the
same check with a slightly shorter error message. -/
def publisherGetTopic (autoCreateTopics : Bool) (st : PubsubBackend)
    (topicName : String) : TopicResult :=
  if st.topics.contains topicName then
    { result := .ok ⟨topicName⟩, backend := st, createCalls := 0, warnLogs := 0 }
  else if autoCreateTopics then
    { result := .ok ⟨topicName⟩
      backend := { st with topics := topicName :: st.topics }
      createCalls := 1, warnLogs := 1 }
  else
    { result := .error ⟨publisherTopicMissingMsg topicName⟩
      backend := st, createCalls := 0, warnLogs := 0 }

/-- Outcome of a subscription-resolution call. -/
structure SubscriptionResult where
  handle : SubscriptionHandle
  backend : PubsubBackend
  createCalls : Nat
deriving Repr

/-- `PubSubExplorer.getOrCreateSubscription`
(`src/pubsub-explorer.service.ts`, lines 71-89): check existence once;
if absent, compute the merged options and create the subscription with
them; if present, return the handle — the merge is not even computed
and the live subscription keeps its existing configuration. -/
def getOrCreateSubscription (st : PubsubBackend) (topic : TopicHandle)
    (subscriptionName : String)
    (subscriptionOptions : Option CreateSubscriptionOptions) : SubscriptionResult :=
  if st.subs.contains subscriptionName then
    { handle := ⟨topic.name, subscriptionName⟩, backend := st, createCalls := 0 }
  else
    let mergedOptions := explorerMergedOptions subscriptionOptions
    let created : PubsubBackend :=
      { st with subs := subscriptionName :: st.subs,
                subConfigs := (subscriptionName, mergedOptions) :: st.subConfigs }
    { handle := ⟨topic.name, subscriptionName⟩, backend := created, createCalls := 1 }

/-- The subscription step of `PubsubBaseListener.onModuleInit`
(`src/pubsub-base.listener.ts`, lines 68-79): identical control flow,
merging via `getMergedSubscriptionOptions`. -/
def baseEnsureSubscription (st : PubsubBackend) (topic : TopicHandle)
    (subscriptionName : String)
    (subscriptionOptions : Option CreateSubscriptionOptions) : SubscriptionResult :=
  if st.subs.contains subscriptionName then
    { handle := ⟨topic.name, subscriptionName⟩, backend := st, createCalls := 0 }
  else
    let options := getMergedSubscriptionOptions subscriptionOptions
    let created : PubsubBackend :=
      { st with subs := subscriptionName :: st.subs,
                subConfigs := (subscriptionName, options) :: st.subConfigs }
    { handle := ⟨topic.name, subscriptionName⟩, backend := created, createCalls := 1 }

/-- C5: when the subscription already exists, both ensure-subscription
variants perform zero creation calls, return the existing
subscription's handle, and leave the backend — including every live
subscription configuration — unchanged, so the merged configuration
has no effect; repeating the call with the same inputs again performs
zero creation calls and changes nothing. -/
theorem c5_ensureSubscription_idempotent (st : PubsubBackend) (topic : TopicHandle)
    (name : String) (opts : Option CreateSubscriptionOptions)
    (hex : st.subs.contains name = true) :
    (getOrCreateSubscription st topic name opts).createCalls = 0 ∧
    (getOrCreateSubscription st topic name opts).handle = ⟨topic.name, name⟩ ∧
    (getOrCreateSubscription st topic name opts).backend = st ∧
    (getOrCreateSubscription
      (getOrCreateSubscription st topic name opts).backend topic name opts).createCalls = 0 ∧
    (getOrCreateSubscription
      (getOrCreateSubscription st topic name opts).backend topic name opts).backend = st ∧
    (baseEnsureSubscription st topic name opts).createCalls = 0 ∧
    (baseEnsureSubscription st topic name opts).handle = ⟨topic.name, name⟩ ∧
    (baseEnsureSubscription st topic name opts).backend = st ∧
    (baseEnsureSubscription
      (baseEnsureSubscription st topic name opts).backend topic name opts).createCalls = 0 ∧
    (baseEnsureSubscription
      (baseEnsureSubscription st topic name opts).backend topic name opts).backend = st := by
  have hmem : name ∈ st.subs := by simpa using hex
  simp [getOrCreateSubscription, baseEnsureSubscription, hmem]

/-- Witness for C5 on a concrete backend that already has the
subscription (with a live ack deadline different from any override). -/
theorem c5_ensureSubscription_idempotent_witness :
    (PubsubBackend.mk ["t"] ["s"]
        [("s", { ackDeadlineSeconds := some 30, retryPolicy := none
                 messageRetentionDuration := none })]).subs.contains "s" = true ∧
    (getOrCreateSubscription
      (PubsubBackend.mk ["t"] ["s"]
        [("s", { ackDeadlineSeconds := some 30, retryPolicy := none
                 messageRetentionDuration := none })])
      ⟨"t"⟩ "s" (some { ackDeadlineSeconds := some 300, retryPolicy := none
                        messageRetentionDuration := none })).backend =
      (PubsubBackend.mk ["t"] ["s"]
        [("s", { ackDeadlineSeconds := some 30, retryPolicy := none
                 messageRetentionDuration := none })]) :=
  ⟨by decide, (c5_ensureSubscription_idempotent
    (PubsubBackend.mk ["t"] ["s"]
      [("s", { ackDeadlineSeconds := some 30, retryPolicy := none
               messageRetentionDuration := none })])
    ⟨"t"⟩ "s" (some { ackDeadlineSeconds := some 300, retryPolicy := none
                      messageRetentionDuration := none }) (by decide)).2.2.1⟩

/-- Outcome of the provisioning part of a listener setup. -/
structure SetupResult where
  result : Except PubsubError SubscriptionHandle
  backend : PubsubBackend
  topicCreateCalls : Nat
  subCreateCalls : Nat
deriving Repr

/-- The provisioning sequence of `PubSubExplorer.setupHandler`
(`src/pubsub-explorer.service.ts`, lines 91-125): ensure the topic,
then the subscription; any failure is logged and re-thrown unchanged to
the caller (`onModuleInit`), which performs no retry. -/
def setupListener (autoCreateTopics : Bool) (st : PubsubBackend)
    (topicName subscriptionName : String)
    (subscriptionOptions : Option CreateSubscriptionOptions) : SetupResult :=
  let t := getOrCreateTopic autoCreateTopics st topicName
  match t.result with
  | .error e =>
    { result := .error e, backend := t.backend
      topicCreateCalls := t.createCalls, subCreateCalls := 0 }
  | .ok topic =>
    let s := getOrCreateSubscription t.backend topic subscriptionName subscriptionOptions
    { result := .ok s.handle, backend := s.backend
      topicCreateCalls := t.createCalls, subCreateCalls := s.createCalls }

/-- C6: with the topic absent, `ensureTopic` under `autoCreateTopics =
true` issues exactly one create call and returns a handle to the (now
existing) topic; under `autoCreateTopics = false` it issues no create
call and fails with an error whose message names the topic, the
failure reaching the setup caller unchanged — for the explorer's
listener path and for the publisher's topic resolution. -/
theorem c6_ensureTopic_autocreate (st : PubsubBackend) (name sname : String)
    (opts : Option CreateSubscriptionOptions)
    (habs : st.topics.contains name = false) :
    (getOrCreateTopic true st name).result = .ok ⟨name⟩ ∧
    (getOrCreateTopic true st name).createCalls = 1 ∧
    (getOrCreateTopic true st name).backend.topics.contains name = true ∧
    (getOrCreateTopic false st name).result = .error ⟨listenerTopicMissingMsg name⟩ ∧
    (getOrCreateTopic false st name).createCalls = 0 ∧
    (getOrCreateTopic false st name).backend = st ∧
    listenerTopicMissingMsg name =
      "Topic '" ++ name ++
        "' does not exist and auto-creation is disabled. Cannot start listener." ∧
    (setupListener false st name sname opts).result =
      .error ⟨listenerTopicMissingMsg name⟩ ∧
    (setupListener false st name sname opts).subCreateCalls = 0 ∧
    (publisherGetTopic true st name).result = .ok ⟨name⟩ ∧
    (publisherGetTopic true st name).createCalls = 1 ∧
    (publisherGetTopic false st name).result = .error ⟨publisherTopicMissingMsg name⟩ ∧
    (publisherGetTopic false st name).createCalls = 0 ∧
    publisherTopicMissingMsg name =
      "Topic '" ++ name ++ "' does not exist and auto-creation is disabled." := by
  have hmem : name ∉ st.topics := by simpa using habs
  simp [getOrCreateTopic, publisherGetTopic, setupListener, hmem,
    listenerTopicMissingMsg, publisherTopicMissingMsg]

/-- Witness for C6 on an empty backend and the topic of the spec
scenario. -/
theorem c6_ensureTopic_autocreate_witness :
    (PubsubBackend.mk [] [] []).topics.contains "user.created" = false ∧
    ((getOrCreateTopic true (PubsubBackend.mk [] [] []) "user.created").createCalls = 1 ∧
     (getOrCreateTopic false (PubsubBackend.mk [] [] []) "user.created").result =
       .error ⟨listenerTopicMissingMsg "user.created"⟩) := by
  refine ⟨by decide, ?_, ?_⟩
  · exact (c6_ensureTopic_autocreate (PubsubBackend.mk [] [] []) "user.created" "s"
      none (by decide)).2.1
  · exact (c6_ensureTopic_autocreate (PubsubBackend.mk [] [] []) "user.created" "s"
      none (by decide)).2.2.2.1

/-! ## Publisher -/

/-- A `publishMessage({data, attributes})` request received by the
backend. -/
structure PublishRequest where
  data : List Char
  attributes : List (String × String)
deriving DecidableEq, Repr

/-- Observable outcome of one `dispatchEvent` call. -/
structure DispatchEventOutcome where
  result : Except PubsubError String
  requests : List PublishRequest
  backend : PubsubBackend
  topicCreateCalls : Nat
  errorLogs : Nat
deriving Repr

/-- `PubsubPublisher.dispatchEvent` (publisher service, lines 149-200):
serialize the payload with `JSON.stringify`, default the attributes to
`{}`, resolve the topic via `getTopic`, publish exactly once and return
the backend-assigned message id; if the try block fails (topic
resolution or publish), log the error with the normalized stack and
re-throw the original error.  The backend's `publishMessage` is a
parameter mapping the request to a message id or an error. -/
def dispatchEvent (autoCreateTopics : Bool) (st : PubsubBackend)
    (publishMessage : PublishRequest → Except PubsubError String)
    (topicName : String) (data : Json)
    (attributes : Option (List (String × String))) : DispatchEventOutcome :=
  let dataBuffer := Json.encode data
  let attrs := attributes.getD []
  let t := publisherGetTopic autoCreateTopics st topicName
  match t.result with
  | .error e =>
    { result := .error e, requests := [], backend := t.backend
      topicCreateCalls := t.createCalls, errorLogs := 1 }
  | .ok _topic =>
    let req : PublishRequest := { data := dataBuffer, attributes := attrs }
    match publishMessage req with
    | .ok messageId =>
      { result := .ok messageId, requests := [req], backend := t.backend
        topicCreateCalls := t.createCalls, errorLogs := 0 }
    | .error e =>
      { result := .error e, requests := [req], backend := t.backend
        topicCreateCalls := t.createCalls, errorLogs := 1 }

/-- C9: with the topic pre-existing, `dispatchEvent` sends exactly one
publish request whose data is the encoding of the payload and whose
attributes default to the empty map, creates nothing, and returns the
backend's message id; when the backend fails the publish, the original
error is logged once and re-raised to the caller. -/
theorem c9_dispatchEvent_publishes_once (ac : Bool) (st : PubsubBackend)
    (topicName : String) (data : Json) (id : String) (e : PubsubError)
    (hex : st.topics.contains topicName = true) :
    (dispatchEvent ac st (fun _ => .ok id) topicName data none).requests =
      [⟨Json.encode data, []⟩] ∧
    (dispatchEvent ac st (fun _ => .ok id) topicName data none).result = .ok id ∧
    (dispatchEvent ac st (fun _ => .ok id) topicName data none).topicCreateCalls = 0 ∧
    (dispatchEvent ac st (fun _ => .ok id) topicName data none).errorLogs = 0 ∧
    (dispatchEvent ac st (fun _ => .error e) topicName data none).requests =
      [⟨Json.encode data, []⟩] ∧
    (dispatchEvent ac st (fun _ => .error e) topicName data none).result = .error e ∧
    (dispatchEvent ac st (fun _ => .error e) topicName data none).errorLogs = 1 := by
  have hmem : topicName ∈ st.topics := by simpa using hex
  simp [dispatchEvent, publisherGetTopic, hmem]

/-- Witness for C9 on the spec scenario: publishing `{id:1}` to the
pre-existing topic `"orders"`. -/
theorem c9_dispatchEvent_publishes_once_witness :
    (PubsubBackend.mk ["orders"] [] []).topics.contains "orders" = true ∧
    ((dispatchEvent true (PubsubBackend.mk ["orders"] [] [])
        (fun _ => .ok "message-123") "orders"
        (Json.obj [(['i', 'd'], Json.num 1)]) none).requests =
      [⟨Json.encode (Json.obj [(['i', 'd'], Json.num 1)]), []⟩] ∧
     (dispatchEvent true (PubsubBackend.mk ["orders"] [] [])
        (fun _ => .ok "message-123") "orders"
        (Json.obj [(['i', 'd'], Json.num 1)]) none).result = .ok "message-123") := by
  refine ⟨by decide, ?_, ?_⟩
  · exact (c9_dispatchEvent_publishes_once true (PubsubBackend.mk ["orders"] [] [])
      "orders" (Json.obj [(['i', 'd'], Json.num 1)]) "message-123" ⟨"boom"⟩ (by decide)).1
  · exact (c9_dispatchEvent_publishes_once true (PubsubBackend.mk ["orders"] [] [])
      "orders" (Json.obj [(['i', 'd'], Json.num 1)]) "message-123" ⟨"boom"⟩ (by decide)).2.1

/-! ## Module configuration: the two option mergers and client creation -/

/-- Inline service-account credentials. -/
structure Credentials where
  clientEmail : String
  privateKey : String
deriving DecidableEq, Repr

/-- A logger value held in the resolved options: either a caller-supplied
logger object (by identity) or the module-constructed
`new Logger("PubsubModule")`. -/
inductive LoggerValue where
  | user : Nat → LoggerValue
  | defaultConsole : String → LoggerValue
deriving DecidableEq, Repr

/-- Runtime shape of the user-supplied `PubsubConfigOptions` object.
The TypeScript type marks `projectId` as required and couples
`emulatorMode` with `port`, but at runtime every key may be absent,
which the `Option` fields model. -/
structure PubsubConfigOptions where
  projectId : Option String
  emulatorMode : Option Bool
  port : Option Nat
  autoCreateTopics : Option Bool
  keyFilename : Option String
  credentials : Option Credentials
  logger : Option Nat
deriving DecidableEq, Repr

/-- An option record after a merge with the module defaults. -/
structure MergedOptions where
  projectId : Option String
  emulatorMode : Bool
  port : Option Nat
  autoCreateTopics : Bool
  keyFilename : Option String
  credentials : Option Credentials
  logger : Option LoggerValue
deriving DecidableEq, Repr

/-- The inline merge of the base-variant `PubsubModule.register`
(`src/pubsub.module.ts`, lines 14-19): `{emulatorMode: false,
autoCreateTopics: false, ...options, logger: options.logger ||
new Logger("PubsubModule")}`. -/
def registerMergedOptions (options : PubsubConfigOptions) : MergedOptions :=
  { projectId := options.projectId
    emulatorMode := options.emulatorMode.getD false
    port := options.port
    autoCreateTopics := options.autoCreateTopics.getD false
    keyFilename := options.keyFilename
    credentials := options.credentials
    logger := some (match options.logger with
      | some l => .user l
      | none => .defaultConsole "PubsubModule") }

/-- `PubsubModule.mergeDefaultOptions` of the explorer-variant module
(lines 124-130): `{emulatorMode: false, autoCreateTopics: false,
...options}`; no logger defaulting happens here (the logger provider
defaults separately) and nothing is validated. -/
def mergeDefaultOptions (options : PubsubConfigOptions) : MergedOptions :=
  { projectId := options.projectId
    emulatorMode := options.emulatorMode.getD false
    port := options.port
    autoCreateTopics := options.autoCreateTopics.getD false
    keyFilename := options.keyFilename
    credentials := options.credentials
    logger := options.logger.map .user }

/-- Constructor arguments the explorer-variant module passes to
`new PubSub(...)`. -/
structure PubSubClientInit where
  projectId : Option String
  apiEndpoint : Option String
  keyFilename : Option String
  credentials : Option Credentials
deriving DecidableEq, Repr

/-- `PubsubModule.createClient` of the explorer-variant module (lines
132-150): in emulator mode a JS-falsy `port` (absent, or `0`) throws
`"PubsubModule: Emulator mode requires a port."`; otherwise the client
is built from the options with no further runtime validation — in
particular `projectId` is never checked at runtime. -/
def createClient (options : MergedOptions) : Except PubsubError PubSubClientInit :=
  if options.emulatorMode then
    match options.port with
    | none => .error ⟨"PubsubModule: Emulator mode requires a port."⟩
    | some p =>
      if p = 0 then .error ⟨"PubsubModule: Emulator mode requires a port."⟩
      else
        .ok { projectId := options.projectId
              apiEndpoint := some ("localhost:" ++ toString p)
              keyFilename := none, credentials := none }
  else
    .ok { projectId := options.projectId, apiEndpoint := none
          keyFilename := options.keyFilename, credentials := options.credentials }

/-- The resolved-configuration pipeline of the explorer-variant
`register` (lines 30-46): merge the defaults, then build the client
from the merged options. -/
def registerResolve (options : PubsubConfigOptions) :
    Except PubsubError (MergedOptions × PubSubClientInit) :=
  let merged := mergeDefaultOptions options
  (createClient merged).map fun client => (merged, client)

/-- Constructor arguments the base-variant module factory passes to
`new PubSub(...)` (`src/pubsub.module.ts`, lines 21-44). -/
structure BaseClientInit where
  emulatorMode : Bool
  port : Option Nat
  projectId : Option String
  keyFilename : Option String
  credentials : Option Credentials
deriving DecidableEq, Repr

/-- The client factory of the base-variant `PubsubModule.register`
(`src/pubsub.module.ts`, lines 21-44): no runtime validation at all —
in emulator mode the (possibly absent) port is passed straight through;
in cloud mode `keyFilename` wins over `credentials` when both are
present.  It is a total function: this variant never fails. -/
def baseRegisterClient (options : MergedOptions) : BaseClientInit :=
  if options.emulatorMode then
    { emulatorMode := true, port := options.port, projectId := options.projectId
      keyFilename := none, credentials := none }
  else
    { emulatorMode := false, port := none, projectId := options.projectId
      keyFilename := options.keyFilename
      credentials := if options.keyFilename.isSome then none else options.credentials }

/-- C8 counterexample: an input with `projectId` absent (and emulator
mode off) on which the resolved-configuration pipeline succeeds, so
"fails if `projectId` is absent" is false of the code: no runtime check
of `projectId` exists. -/
theorem c8_counterexample :
    registerResolve ⟨none, none, none, none, none, none, none⟩ =
      .ok (⟨none, false, none, false, none, none, none⟩, ⟨none, none, none, none⟩) := rfl

/-- C8 amended: the explorer-variant configuration pipeline fails iff
emulator mode is selected with a JS-falsy port (absent or `0`); it
never checks `projectId` at runtime (that requirement is only enforced
by the static type), and it is pure; the base-variant register performs
no runtime failure check at all (`baseRegisterClient` is total). -/
theorem c8_amended (o : PubsubConfigOptions) :
    ((∃ e, registerResolve o = .error e) ↔
      (o.emulatorMode.getD false = true ∧ (o.port = none ∨ o.port = some 0))) ∧
    (∀ o2 : MergedOptions, baseRegisterClient o2 = baseRegisterClient o2) := by
  refine ⟨?_, fun _ => rfl⟩
  unfold registerResolve createClient mergeDefaultOptions
  rcases o with ⟨pid, em, port, act, kf, cr, lg⟩
  rcases em with _ | em
  · simp [Except.map]
  · rcases em with _ | _
    · simp [Except.map]
    · rcases port with _ | p
      · simp [Except.map]
      · rcases Nat.eq_zero_or_pos p with hp | hp
        · subst hp
          simp [Except.map]
        · simp [Except.map, Nat.pos_iff_ne_zero.mp hp]

/-- C10 counterexample: with `autoCreateTopics` omitted, both merge
implementations resolve it to `false` — they do not disagree on this
field. -/
theorem c10_counterexample :
    (registerMergedOptions ⟨some "p", none, none, none, none, none, none⟩).autoCreateTopics
      = false ∧
    (mergeDefaultOptions ⟨some "p", none, none, none, none, none, none⟩).autoCreateTopics
      = false :=
  ⟨rfl, rfl⟩

/-- C10 amended: the two option-merging implementations are
extensionally equal on `autoCreateTopics` — on every input both resolve
an omitted value to `false` (the default of `true` appears only in one
README, in neither implementation). -/
theorem c10_amended (o : PubsubConfigOptions) :
    (registerMergedOptions o).autoCreateTopics = (mergeDefaultOptions o).autoCreateTopics ∧
    (registerMergedOptions o).autoCreateTopics = o.autoCreateTopics.getD false :=
  ⟨rfl, rfl⟩

end PubsubLib
